import Mathlib

/-!
Verification of the linkedin-automation repository's core logic:
a shallow embedding, in Lean, of the orchestration decision procedure,
the quota and schedule guard, the SQLite-backed target store, the
cookie persistence routine and the stealth cadence generators, together
with theorems settling the specification's claims about them.
-/

/-! ## Lifecycle orchestrator: ConnectWithProfile (internal/linkedin/connect) -/

/-- The observable signals of a visited profile page: which buttons /
elements the orchestrator's successive `rod.Try` probes would find.
Each field corresponds to one probe in `ConnectWithProfile`. -/
structure ProfilePage where
  hasPending : Bool
  hasWithdraw : Bool
  hasMessage : Bool
  hasFollowing : Bool
  hasInMail : Bool
  hasDirectConnect : Bool
  hasMore : Bool
  hasMoreMenu : Bool
  hasMoreConnect : Bool
  hasIntroButton : Bool

/-- Embedding of the later revision of `ConnectWithProfile`
(src/unnamed/part_005, lines 303-375): check Pending, then Withdraw,
then hunt for the Connect button (direct, then via the More dropdown);
only if Connect is absent check Message (already connected), then
InMail (premium), else fail. -/
def ConnectWithProfile (p : ProfilePage) : String :=
  if p.hasPending then "skipped_pending"
  else if p.hasWithdraw then "skipped_pending"
  else if p.hasDirectConnect then "clicked"
  else if p.hasMore && p.hasMoreConnect then "clicked"
  else if p.hasMessage then "skipped_connected"
  else if p.hasInMail then "skipped_premium"
  else "failed"

/-- Embedding of the earlier revision of `ConnectWithProfile`
(src/unnamed/part_005, lines 20-238): Pending, Withdraw, Message,
Following, InMail probes in that order, then the Connect hunt
(direct, More dropdown, enterprise introduction), else fail.
The out-of-network probe is ignored because its result is discarded
by the source (`_ = errOutOfNetwork`). -/
def ConnectWithProfileV1 (p : ProfilePage) : String :=
  if p.hasPending then "skipped_pending"
  else if p.hasWithdraw then "skipped_pending"
  else if p.hasMessage then "skipped_connected"
  else if p.hasFollowing then "skipped_connected"
  else if p.hasInMail then "skipped_premium"
  else if p.hasDirectConnect then "clicked"
  else if p.hasMore && p.hasMoreMenu && p.hasMoreConnect then "clicked"
  else if p.hasIntroButton then "clicked"
  else "failed"

/-! ## Target store (internal/storage/sqlite.go)

The `profiles` table is modelled as a list of rows; `url` carries a
UNIQUE constraint, which `INSERT OR IGNORE` consults. Timestamps are
abstract instants (naturals). A `none` in the error component of a
result stands for Go's `nil` error. -/

/-- One row of the `profiles` table. -/
structure ProfileRow where
  url : String
  status : String
  created_at : Nat
  updated_at : Nat
deriving DecidableEq

/-- The `profiles` table. -/
abbrev ProfileStore := List ProfileRow

/-- `AddProfile` (src/unnamed/part_000, lines 69-91): `INSERT OR IGNORE`
of a new row with status "found" and both timestamps set to `now`;
the Bool result is `rowsAffected > 0`, i.e. `true` when inserted and
`false` when the UNIQUE `url` constraint made the insert a no-op. -/
def AddProfile (store : ProfileStore) (url : String) (now : Nat) :
    ProfileStore × Bool :=
  if store.any (fun r => r.url == url) then (store, false)
  else (store ++ [⟨url, "found", now, now⟩], true)

/-- `UpdateStatus` (internal/storage/sqlite.go, lines 149-169):
`UPDATE profiles SET status = ?, updated_at = CURRENT_TIMESTAMP WHERE
url = ?`. A zero `rowsAffected` is only logged as a warning; the
function still returns `nil` (modelled as `none`). -/
def UpdateStatus (store : ProfileStore) (url newStatus : String) (now : Nat) :
    ProfileStore × Option String :=
  (store.map (fun r =>
      if r.url == url then { r with status := newStatus, updated_at := now } else r),
   none)

/-- `UpdateProfileStatus` (src/unnamed/part_001, lines 85-98): same
UPDATE with `updated_at = time.Now()`; no rowsAffected check at all. -/
def UpdateProfileStatus (store : ProfileStore) (url status : String) (now : Nat) :
    ProfileStore × Option String :=
  (store.map (fun r =>
      if r.url == url then { r with status := status, updated_at := now } else r),
   none)

/-- `GetProfilesToInvite` (internal/storage/sqlite.go, lines 113-144):
`SELECT url FROM profiles WHERE status = 'found' ORDER BY created_at
ASC LIMIT ?`. -/
def GetProfilesToInvite (store : ProfileStore) (lim : Nat) : List String :=
  (((store.filter (fun r => r.status == "found")).mergeSort
      (fun a b => a.created_at ≤ b.created_at)).map (fun r => r.url)).take lim

/-- `GetTodayCount` (internal/guard/limits.go, lines 211-228):
`SELECT COUNT(*) FROM profiles WHERE created_at >= startOfDay`. -/
def GetTodayCount (store : ProfileStore) (startOfDay : Nat) : Nat :=
  (store.filter (fun r => startOfDay ≤ r.created_at)).length

/-- Modelled from the spec: `GetDailyInviteCount` is called by
`runConnectMode` (cmd/bot/main.go) but its definition is not among the
source files. Per the spec, quota counters are "counts of
Target-record transitions whose timestamp falls within the current
calendar day"; for the invitation cap that is the count of records
whose transition into the invitation-produced state ("invited")
happened today. -/
def GetDailyInviteCount (store : ProfileStore) (startOfDay : Nat) : Nat :=
  (store.filter (fun r => r.status == "invited" && startOfDay ≤ r.updated_at)).length

/-- The data-model invariant of §3: every record satisfies
`updated_at >= created_at`. -/
def TimestampInv (store : ProfileStore) : Prop :=
  ∀ r ∈ store, r.created_at ≤ r.updated_at

/-! ## Quota gates (cmd/bot/main.go) -/

/-- `runSearchMode` (cmd/bot/main.go, lines 146-174), reduced to its
quota decision: read today's discovery count; if
`todayCount >= cfg.SearchLimit`, skip the stage (zero discovery
transitions); otherwise run the search, which records one transition
per newly found profile (`found` lists the profiles the search would
discover). The result is the number of discovery transitions
performed. -/
def runSearchMode (store : ProfileStore) (startOfDay : Nat) (searchLimit : Int)
    (found : List String) : Nat :=
  let todayCount := GetTodayCount store startOfDay
  if (todayCount : Int) ≥ searchLimit then 0
  else found.length

/-- `runConnectMode` (cmd/bot/main.go, lines 177-272), reduced to its
quota decision: read today's invite count, compute
`remaining := cfg.InviteLimit - inviteCount`; if `remaining <= 0`,
stop (empty batch); otherwise fetch up to `remaining` profiles with
`GetProfilesToInvite`. The result is the batch of profiles the run
will attempt to invite (each attempt yields at most one invitation
transition). -/
def runConnectMode (store : ProfileStore) (startOfDay : Nat) (inviteLimit : Int) :
    List String :=
  let inviteCount := GetDailyInviteCount store startOfDay
  let remaining : Int := inviteLimit - inviteCount
  if remaining ≤ 0 then []
  else GetProfilesToInvite store remaining.toNat

/-! ## Schedule guard (internal/guard/limits.go, CheckWorkingHours)

Go's `strings.Split(s, ":")` and `strconv.Atoi` are modelled over the
character list of the string. Weekdays use Go's numbering:
Sunday = 0, ..., Saturday = 6. -/

/-- `strings.Split(s, ":")` over characters. -/
def splitOnColon (cs : List Char) : List (List Char) :=
  match cs with
  | [] => [[]]
  | c :: rest =>
    let r := splitOnColon rest
    if c = ':' then [] :: r
    else
      match r with
      | [] => [[c]]
      | h :: t => (c :: h) :: t

/-- Decimal digit test, as in `strconv.Atoi`. -/
def isDecDigit (c : Char) : Bool := '0' ≤ c && c ≤ '9'

/-- Value of a digit string (no sign). -/
def digitsVal (cs : List Char) : Nat :=
  cs.foldl (fun a c => a * 10 + (c.toNat - 48)) 0

/-- `strconv.Atoi`: optional sign then one or more decimal digits,
error (`none`) otherwise. -/
def atoi (cs : List Char) : Option Int :=
  match cs with
  | [] => none
  | '+' :: rest =>
    if rest ≠ [] ∧ rest.all isDecDigit then some (digitsVal rest) else none
  | '-' :: rest =>
    if rest ≠ [] ∧ rest.all isDecDigit then some (-(digitsVal rest : Int)) else none
  | _ => if cs.all isDecDigit then some (digitsVal cs) else none

/-- `CheckWorkingHours` (internal/guard/limits.go, lines 118-178):
refuse Saturday/Sunday, parse the configured "HH:MM" window (malformed
configuration is an error), convert everything to minutes since
midnight, refuse `currentMinutes < startMinutes` and
`currentMinutes >= endMinutes`, permit otherwise. -/
def CheckWorkingHours (weekday hour minute : Nat) (workStart workEnd : String) :
    Except String Unit :=
  if weekday == 6 || weekday == 0 then
    .error "bot cannot run on weekends"
  else
    match splitOnColon workStart.data with
    | [sh, sm] =>
      match atoi sh, atoi sm with
      | some startHour, some startMinute =>
        match splitOnColon workEnd.data with
        | [eh, em] =>
          match atoi eh, atoi em with
          | some endHour, some endMinute =>
            let currentMinutes : Int := hour * 60 + minute
            let startMinutes : Int := startHour * 60 + startMinute
            let endMinutes : Int := endHour * 60 + endMinute
            if currentMinutes < startMinutes then
              .error "bot cannot run before work start"
            else if currentMinutes ≥ endMinutes then
              .error "bot cannot run after work end"
            else
              .ok ()
          | _, _ => .error "invalid WorkEnd time"
        | _ => .error "invalid WorkEnd format"
      | _, _ => .error "invalid WorkStart time"
    | _ => .error "invalid WorkStart format"

/-- Whether the schedule gate lets the run proceed (`nil` error). -/
def isPermitted (r : Except String Unit) : Bool :=
  match r with
  | .ok _ => true
  | .error _ => false

/-! ## Scroll cadence (internal/stealth/mouse.go, generateInertiaDelays) -/

/-- One acceleration-phase delay: `80 - i*15`, clamped below at 20. -/
def accelDelay (i : Nat) : Int :=
  if (80 : Int) - 15 * i < 20 then 20 else 80 - 15 * i

/-- One deceleration-phase delay: `20 + i*15`, clamped above at 80. -/
def decelDelay (i : Nat) : Int :=
  if (20 : Int) + 15 * i > 80 then 80 else 20 + 15 * i

/-- `generateInertiaDelays` (internal/stealth/mouse.go, lines 134-165):
acceleration phase of `numSteps/4` steps, constant phase of the
remaining steps with per-step jitter `20 + rand.Intn(10)`, then a
deceleration phase of `numSteps/4` steps. `jitter i` models the i-th
`rand.Intn(10)` draw. -/
def generateInertiaDelays (numSteps : Nat) (jitter : Nat → Nat) : List Int :=
  let accelPhase := numSteps / 4
  let decelPhase := numSteps / 4
  let constPhase := numSteps - accelPhase - decelPhase
  ((List.range accelPhase).map accelDelay)
    ++ ((List.range constPhase).map (fun i => 20 + (jitter i : Int)))
    ++ ((List.range decelPhase).map decelDelay)

/-! ## Typing simulation (internal/stealth/actions.go and
src/unnamed/part_004, humanTypeWithMistakes)

A Go string is a byte sequence; `text[i]` is a byte, and
`string(text[i])` is the one-character string of the code point equal
to that byte, while `for _, char := range text` iterates decoded
runes. The input element's content is the list of characters it has
received, with Backspace removing the last one. -/

/-- UTF-8 encoding of one character (the bytes of a one-rune Go
string). -/
def utf8EncodeCharNat (c : Char) : List Nat :=
  let n := c.toNat
  if n < 0x80 then [n]
  else if n < 0x800 then
    [0xC0 ||| (n >>> 6), 0x80 ||| (n &&& 0x3F)]
  else if n < 0x10000 then
    [0xE0 ||| (n >>> 12), 0x80 ||| ((n >>> 6) &&& 0x3F), 0x80 ||| (n &&& 0x3F)]
  else
    [0xF0 ||| (n >>> 18), 0x80 ||| ((n >>> 12) &&& 0x3F),
     0x80 ||| ((n >>> 6) &&& 0x3F), 0x80 ||| (n &&& 0x3F)]

/-- The bytes of a Go string (`len(text)` is the length of this
list). -/
def utf8Bytes (s : String) : List Nat :=
  s.data.flatMap utf8EncodeCharNat

/-- The typo alphabet `"qwertyuiopasdfghjklzxcvbnm"` of
`humanTypeWithMistakes`. -/
def wrongChars : List Char := "qwertyuiopasdfghjklzxcvbnm".data

/-- The wrong character typed at the typo position, for the draw
`rand.Intn(len(wrongChars)) = k`. -/
def typoChar (k : Nat) : Char := wrongChars.getD k 'q'

/-- `HumanType` (internal/stealth/actions.go, lines 17-52): inputs
each rune of the text in order (delays do not affect the element's
content). The result is the element's content afterwards. -/
def HumanType (text : String) : List Char :=
  text.data.foldl (fun buf c => buf ++ [c]) []

/-- `humanTypeWithMistakes` (src/unnamed/part_004, lines 58-107).
`doTypo` models the 30% draw, `typoPos` the `rand.Intn(len(text)-1)`
draw and `wrongIdx` the typo-alphabet draw. On the typo branch the
function first calls `rand.Intn(len(text)-1)`, which panics when its
bound is non-positive — modelled as `.error buf` carrying the element
content at the panic (nothing typed yet). Otherwise it types the first
`typoPos` BYTES of the text (`string(text[i])`), the wrong character,
a Backspace, then the bytes from `typoPos` on; on the plain branch it
types the runes of the text. `.ok buf` is the element content on
completion. -/
def humanTypeWithMistakes (text : String) (doTypo : Bool)
    (typoPos wrongIdx : Nat) : Except (List Char) (List Char) :=
  let bytes := utf8Bytes text
  if doTypo then
    if (bytes.length : Int) - 1 ≤ 0 then .error []
    else
      let typed := (bytes.take typoPos).map Char.ofNat
      let withTypo := typed ++ [typoChar wrongIdx]
      let corrected := withTypo.dropLast
      .ok (corrected ++ (bytes.drop typoPos).map Char.ofNat)
  else .ok text.data

/-! ## Cookie persistence (internal/linkedin/auth.go, saveCookies)

`saveCookies` is modelled as the sequence of file-system effects it
performs on `cookies.json`; the file's content (or absence) is the
observable state, and an interruption may stop the sequence after any
prefix. -/

/-- A file-system operation on the bundle file: `create` is
`os.Create` (create/truncate to empty) and `writeAll d` is the
encoder writing the payload `d`. -/
inductive FsOp where
  | create : FsOp
  | writeAll : List Nat → FsOp
deriving DecidableEq

/-- Effect of one operation on the bundle file's content. -/
def fsApply (content : Option (List Nat)) : FsOp → Option (List Nat)
  | .create => some []
  | .writeAll d => some (content.getD [] ++ d)

/-- The effect sequence of `saveCookies`
(internal/linkedin/auth.go, lines 447-456): `os.Create(cookiesFile)`
then `json.NewEncoder(file).Encode(cookies)`. The earlier revision
(lines 146-154) uses `os.WriteFile`, whose effect is the same
truncate-then-write pair. No temporary file and no rename occur. -/
def saveCookiesOps (data : List Nat) : List FsOp :=
  [.create, .writeAll data]

/-- Run a sequence of operations. -/
def fsRun (content : Option (List Nat)) (ops : List FsOp) : Option (List Nat) :=
  ops.foldl fsApply content

/-- The contents visible after each prefix of the sequence — the
states an interruption mid-save can leave on disk. -/
def fsMidStates (content : Option (List Nat)) (ops : List FsOp) :
    List (Option (List Nat)) :=
  (List.range (ops.length + 1)).map (fun k => fsRun content (ops.take k))

/-- Modelled from the spec: "persist the fresh credential bundle,
overwriting the prior one atomically (write-to-temp-then-replace,
never leave a half-written bundle on disk)" — a save running over old
content `old` toward new content `new` is atomic when every state an
interruption can expose is either the old bundle or the new one. -/
def AtomicSave (old : Option (List Nat)) (ops : List FsOp)
    (new : Option (List Nat)) : Prop :=
  ∀ s ∈ fsMidStates old ops, s = old ∨ s = new

/-! ## Theorems -/

/-- Claim C1: in every revision of the connect orchestrator the
outstanding-request check (Pending / Withdraw button) runs before any
already-connected check (Message button), so a page exhibiting both an
outstanding-request signal and an already-connected signal is always
classified "skipped_pending", never "skipped_connected". -/
theorem connect_checks_pending_before_connected (p : ProfilePage)
    (hp : (p.hasPending || p.hasWithdraw) = true)
    (hm : p.hasMessage = true) :
    ConnectWithProfile p = "skipped_pending"
      ∧ ConnectWithProfileV1 p = "skipped_pending" := by
  rcases Bool.or_eq_true_iff.mp hp with h | h <;>
    simp [ConnectWithProfile, ConnectWithProfileV1, h, hm]

/-- Witness for C1: the fully ambiguous page (every probe fires) is
classified as pending by both revisions. -/
theorem connect_checks_pending_before_connected_witness :
    ConnectWithProfile ⟨true, true, true, true, true, true, true, true, true, true⟩
        = "skipped_pending"
      ∧ ConnectWithProfileV1 ⟨true, true, true, true, true, true, true, true, true, true⟩
        = "skipped_pending" :=
  connect_checks_pending_before_connected
    ⟨true, true, true, true, true, true, true, true, true, true⟩ (by decide) (by decide)

/-- Claim C4: inserting a URL that the store already contains is a
no-op reported as duplicate — `AddProfile` leaves the store unchanged
(zero rows affected) and returns `false`; and starting from a store
without the URL, insert-then-insert leaves exactly one record for it,
with the second call reporting the duplicate. -/
theorem addProfile_duplicate_url_noop (store : ProfileStore) (url : String)
    (now now' : Nat) :
    (store.any (fun r => r.url == url) = true →
      AddProfile store url now' = (store, false))
    ∧ (store.any (fun r => r.url == url) = false →
        AddProfile (AddProfile store url now).1 url now'
            = ((AddProfile store url now).1, false)
        ∧ (AddProfile store url now).1.countP (fun r => r.url == url) = 1) := by
  constructor
  · intro h
    simp [AddProfile, h]
  · intro h
    have h0 : store.countP (fun r => r.url == url) = 0 := by
      rw [List.countP_eq_zero]
      intro a ha
      have := List.any_eq_false.mp h a ha
      simpa using this
    have hfst : (AddProfile store url now).1 = store ++ [⟨url, "found", now, now⟩] := by
      simp [AddProfile, h]
    constructor
    · rw [hfst]
      have hany : ((store ++ [⟨url, "found", now, now⟩] : ProfileStore).any
          (fun r => r.url == url)) = true := by
        simp [List.any_append]
      simp [AddProfile, hany]
    · rw [hfst]
      simp [List.countP_append, h0]

/-- Witness for C4: on a concrete empty store, the first insert of a
URL stores one record and the second reports the duplicate. -/
theorem addProfile_duplicate_url_noop_witness :
    AddProfile (AddProfile [] "https://a/" 1).1 "https://a/" 2
        = ((AddProfile [] "https://a/" 1).1, false)
    ∧ (AddProfile [] "https://a/" 1).1.countP (fun r => r.url == "https://a/") = 1 :=
  (addProfile_duplicate_url_noop [] "https://a/" 1 2).2 (by decide)

/-- Claim C9: updating the status of a URL that has no record succeeds
(`nil` error) and leaves every record unchanged — the missing row is
only logged, never surfaced as an error. -/
theorem updateStatus_missing_url_noop (store : ProfileStore)
    (url newStatus : String) (now : Nat)
    (h : ∀ r ∈ store, (r.url == url) = false) :
    UpdateStatus store url newStatus now = (store, none) := by
  have hmap : store.map (fun r =>
      if r.url == url then { r with status := newStatus, updated_at := now } else r)
      = store.map id := List.map_congr_left (fun a ha => by simp [h a ha])
  simp only [UpdateStatus]
  rw [hmap, List.map_id]

/-- Witness for C9: a concrete store without the queried URL is
returned untouched together with a `nil` error. -/
theorem updateStatus_missing_url_noop_witness :
    UpdateStatus [⟨"https://a/", "found", 3, 3⟩] "https://b/" "invited" 9
      = ([⟨"https://a/", "found", 3, 3⟩], none) :=
  updateStatus_missing_url_noop [⟨"https://a/", "found", 3, 3⟩] "https://b/" "invited" 9
    (by decide)

/-- Claim C7: every store operation preserves
`updated_at >= created_at`: `AddProfile` initializes both timestamps
to the same instant, and `UpdateStatus` / `UpdateProfileStatus` set
`updated_at` to the current instant, which is not earlier than any
record's `created_at` under a monotone clock. -/
theorem store_timestamp_invariant (store : ProfileStore) (url status : String)
    (now : Nat) (hinv : TimestampInv store) :
    TimestampInv (AddProfile store url now).1
    ∧ ((∀ r ∈ store, r.created_at ≤ now) →
        TimestampInv (UpdateStatus store url status now).1)
    ∧ ((∀ r ∈ store, r.created_at ≤ now) →
        TimestampInv (UpdateProfileStatus store url status now).1) := by
  refine ⟨?_, ?_, ?_⟩
  · intro r hr
    unfold AddProfile at hr
    by_cases h : store.any (fun r => r.url == url) = true
    · rw [if_pos h] at hr
      exact hinv r hr
    · rw [if_neg h] at hr
      simp only [List.mem_append, List.mem_singleton] at hr
      rcases hr with hr | hr
      · exact hinv r hr
      · subst hr; exact le_refl _
  · intro hclock r hr
    simp only [UpdateStatus, List.mem_map] at hr
    obtain ⟨a, ha, rfl⟩ := hr
    by_cases h : (a.url == url) = true
    · simp only [if_pos h]
      exact hclock a ha
    · simp only [if_neg h]
      exact hinv a ha
  · intro hclock r hr
    simp only [UpdateProfileStatus, List.mem_map] at hr
    obtain ⟨a, ha, rfl⟩ := hr
    by_cases h : (a.url == url) = true
    · simp only [if_pos h]
      exact hclock a ha
    · simp only [if_neg h]
      exact hinv a ha

/-- Witness for C7: on a concrete store satisfying the invariant, an
insert and both update operations preserve it at a later instant. -/
theorem store_timestamp_invariant_witness :
    TimestampInv (AddProfile [⟨"https://a/", "found", 2, 3⟩] "https://b/" 5).1
    ∧ TimestampInv (UpdateStatus [⟨"https://a/", "found", 2, 3⟩] "https://a/" "invited" 5).1
    ∧ TimestampInv
        (UpdateProfileStatus [⟨"https://a/", "found", 2, 3⟩] "https://a/" "invited" 5).1 := by
  have h := store_timestamp_invariant [⟨"https://a/", "found", 2, 3⟩] "https://b/" "x" 5
    (by intro r hr; simp only [List.mem_singleton] at hr; subst hr; decide)
  have h2 := store_timestamp_invariant [⟨"https://a/", "found", 2, 3⟩] "https://a/" "invited" 5
    (by intro r hr; simp only [List.mem_singleton] at hr; subst hr; decide)
  exact ⟨h.1, h2.2.1 (by intro r hr; simp only [List.mem_singleton] at hr; subst hr; decide),
    h2.2.2 (by intro r hr; simp only [List.mem_singleton] at hr; subst hr; decide)⟩

/-- Claim C2: each operation class is gated strictly-less-than against
its daily cap: with the day's count at or above the cap the stage is
skipped entirely (zero discovery transitions; empty invitation batch)
regardless of eligible targets, with the count strictly below the cap
the search stage proceeds, and the invitation batch is additionally
bounded by the remaining quota (cap minus today's count). -/
theorem daily_caps_gate_runs (store : ProfileStore) (startOfDay : Nat)
    (Ks Ki : Int) (found : List String) :
    (Ks ≤ (GetTodayCount store startOfDay : Int) →
      runSearchMode store startOfDay Ks found = 0)
    ∧ ((GetTodayCount store startOfDay : Int) < Ks →
        runSearchMode store startOfDay Ks found = found.length)
    ∧ (Ki ≤ (GetDailyInviteCount store startOfDay : Int) →
        runConnectMode store startOfDay Ki = [])
    ∧ ((runConnectMode store startOfDay Ki).length : Int)
        ≤ max (Ki - (GetDailyInviteCount store startOfDay : Int)) 0 := by
  refine ⟨?_, ?_, ?_, ?_⟩
  · intro hK
    simp only [runSearchMode]
    rw [if_pos hK]
  · intro hK
    simp only [runSearchMode]
    rw [if_neg (by omega)]
  · intro hK
    simp only [runConnectMode]
    rw [if_pos (by omega)]
  · simp only [runConnectMode]
    by_cases hrem : (Ki - (GetDailyInviteCount store startOfDay : Int)) ≤ 0
    · rw [if_pos hrem]
      simp only [List.length_nil, Int.ofNat_zero, Nat.cast_zero]
      exact le_max_right _ _
    · rw [if_neg hrem]
      have hlen : (GetProfilesToInvite store
            (Ki - (GetDailyInviteCount store startOfDay : Int)).toNat).length
          ≤ (Ki - (GetDailyInviteCount store startOfDay : Int)).toNat := by
        simp only [GetProfilesToInvite, List.length_take]
        exact min_le_left _ _
      have hcast : ((Ki - (GetDailyInviteCount store startOfDay : Int)).toNat : Int)
          = Ki - (GetDailyInviteCount store startOfDay : Int) :=
        Int.toNat_of_nonneg (by omega)
      calc ((GetProfilesToInvite store
            (Ki - (GetDailyInviteCount store startOfDay : Int)).toNat).length : Int)
          ≤ ((Ki - (GetDailyInviteCount store startOfDay : Int)).toNat : Int) := by
            exact_mod_cast hlen
        _ = Ki - (GetDailyInviteCount store startOfDay : Int) := hcast
        _ ≤ max (Ki - (GetDailyInviteCount store startOfDay : Int)) 0 := le_max_left _ _

/-- Witness for C2: a store with one profile discovered today and one
invitation recorded today, under caps of 1, skips both stages;
under a cap of 2 the search proceeds. -/
theorem daily_caps_gate_runs_witness :
    runSearchMode [⟨"https://a/", "found", 10, 10⟩, ⟨"https://b/", "invited", 1, 10⟩]
        5 1 ["https://c/"] = 0
    ∧ runSearchMode [⟨"https://a/", "found", 10, 10⟩, ⟨"https://b/", "invited", 1, 10⟩]
        5 3 ["https://c/"] = 1
    ∧ runConnectMode [⟨"https://a/", "found", 10, 10⟩, ⟨"https://b/", "invited", 1, 10⟩]
        5 1 = [] := by
  refine ⟨?_, ?_, ?_⟩
  · exact (daily_caps_gate_runs
      [⟨"https://a/", "found", 10, 10⟩, ⟨"https://b/", "invited", 1, 10⟩]
      5 1 1 ["https://c/"]).1 (by decide)
  · exact (daily_caps_gate_runs
      [⟨"https://a/", "found", 10, 10⟩, ⟨"https://b/", "invited", 1, 10⟩]
      5 3 1 ["https://c/"]).2.1 (by decide)
  · exact (daily_caps_gate_runs
      [⟨"https://a/", "found", 10, 10⟩, ⟨"https://b/", "invited", 1, 10⟩]
      5 1 1 []).2.2.1 (by decide)

/-- Claim C6: with the 09:00-21:00 window the schedule gate refuses
08:59 and exactly 21:00, permits 09:00 and 20:59 (inclusive start,
exclusive end), and refuses any time on Saturday or Sunday. -/
theorem checkWorkingHours_window (wd h m : Nat) :
    ((wd = 0 ∨ wd = 6) →
      isPermitted (CheckWorkingHours wd h m "09:00" "21:00") = false)
    ∧ (1 ≤ wd → wd ≤ 5 →
        isPermitted (CheckWorkingHours wd 8 59 "09:00" "21:00") = false
        ∧ isPermitted (CheckWorkingHours wd 21 0 "09:00" "21:00") = false
        ∧ CheckWorkingHours wd 9 0 "09:00" "21:00" = .ok ()
        ∧ CheckWorkingHours wd 20 59 "09:00" "21:00" = .ok ()) := by
  constructor
  · rintro (rfl | rfl) <;> rfl
  · intro h1 h5
    interval_cases wd <;> exact ⟨rfl, rfl, rfl, rfl⟩

/-- Witness for C6: on a Monday (weekday 1) the four boundary times
behave as claimed, and Saturday (weekday 6) noon is refused. -/
theorem checkWorkingHours_window_witness :
    isPermitted (CheckWorkingHours 6 12 0 "09:00" "21:00") = false
    ∧ isPermitted (CheckWorkingHours 1 8 59 "09:00" "21:00") = false
    ∧ isPermitted (CheckWorkingHours 1 21 0 "09:00" "21:00") = false
    ∧ CheckWorkingHours 1 9 0 "09:00" "21:00" = .ok ()
    ∧ CheckWorkingHours 1 20 59 "09:00" "21:00" = .ok () := by
  refine ⟨(checkWorkingHours_window 6 12 0).1 (Or.inr rfl), ?_⟩
  have h := (checkWorkingHours_window 1 12 0).2 (by decide) (by decide)
  exact ⟨h.1, h.2.1, h.2.2.1, h.2.2.2⟩

/-- Claim C8: for every number of scroll steps N >= 1, the three phase
sizes floor(N/4), remainder, floor(N/4) sum exactly to N, the delay
list has length N, and every delay lies within 20 and 80 milliseconds
inclusive. -/
theorem inertia_delays_partition_bounds (N : Nat) (jitter : Nat → Nat)
    (hN : 1 ≤ N) (hj : ∀ i, jitter i < 10) :
    N / 4 + (N - N / 4 - N / 4) + N / 4 = N
    ∧ (generateInertiaDelays N jitter).length = N
    ∧ ∀ d ∈ generateInertiaDelays N jitter, 20 ≤ d ∧ d ≤ 80 := by
  refine ⟨by omega, ?_, ?_⟩
  · simp only [generateInertiaDelays, List.length_append, List.length_map,
      List.length_range]
    omega
  · intro d hd
    simp only [generateInertiaDelays, List.mem_append, List.mem_map,
      List.mem_range] at hd
    rcases hd with (⟨i, _, rfl⟩ | ⟨i, _, rfl⟩) | ⟨i, _, rfl⟩
    · unfold accelDelay
      split
      · omega
      · constructor <;> omega
    · have := hj i
      omega
    · unfold decelDelay
      split
      · omega
      · constructor <;> omega

/-- Witness for C8: at N = 6 with zero jitter, the phases are 1, 4, 1,
the list has length 6 and all delays are within the bounds. -/
theorem inertia_delays_partition_bounds_witness :
    6 / 4 + (6 - 6 / 4 - 6 / 4) + 6 / 4 = 6
    ∧ (generateInertiaDelays 6 (fun _ => 0)).length = 6
    ∧ ∀ d ∈ generateInertiaDelays 6 (fun _ => 0), 20 ≤ d ∧ d ≤ 80 :=
  inertia_delays_partition_bounds 6 (fun _ => 0) (by decide) (fun i => by norm_num)

/-- Folding character-appends onto an accumulator types the whole
list after it. -/
theorem humanTypeFoldl_push (l acc : List Char) :
    l.foldl (fun buf c => buf ++ [c]) acc = acc ++ l := by
  induction l generalizing acc with
  | nil => simp
  | cons c cs ih => simp [ih]

/-- For an ASCII character list, re-reading the UTF-8 bytes as
individual code points reproduces the characters — the byte-indexed
typing path is harmless exactly on ASCII input. -/
theorem asciiBytes_map_ofNat (cs : List Char) (h : ∀ c ∈ cs, c.toNat < 128) :
    (cs.flatMap utf8EncodeCharNat).map Char.ofNat = cs := by
  induction cs with
  | nil => rfl
  | cons c rest ih =>
    have hc : c.toNat < 128 := h c (List.mem_cons_self c rest)
    have henc : utf8EncodeCharNat c = [c.toNat] := by
      unfold utf8EncodeCharNat
      rw [if_pos (by omega)]
    rw [List.flatMap_cons, List.map_append, henc,
      ih (fun a ha => h a (List.mem_cons_of_mem c ha))]
    simp [Char.ofNat_toNat]

/-- Claim C5 (amended): the typing simulation round-trips its input —
`HumanType` and the no-typo branch of `humanTypeWithMistakes` leave
exactly the original text in the element for every input, and the
typo-then-backspace branch does so for every ASCII input of byte
length at least 2 (on which `rand.Intn` does not panic), for every
draw of the typo position and wrong character. -/
theorem humanType_roundtrip_ascii (text : String) (tp wi : Nat) :
    HumanType text = text.data
    ∧ humanTypeWithMistakes text false tp wi = .ok text.data
    ∧ ((∀ c ∈ text.data, c.toNat < 128) → 2 ≤ (utf8Bytes text).length →
        humanTypeWithMistakes text true tp wi = .ok text.data) := by
  refine ⟨?_, rfl, ?_⟩
  · simpa using humanTypeFoldl_push text.data []
  · intro hascii hlen
    have hcond : ¬(((utf8Bytes text).length : Int) - 1 ≤ 0) := by
      omega
    simp only [humanTypeWithMistakes, if_true]
    rw [if_neg hcond, List.dropLast_concat, ← List.map_append,
      List.take_append_drop]
    exact congrArg Except.ok (asciiBytes_map_ofNat text.data hascii)

/-- Witness for C5 (amended): on the ASCII text "hi" all three typing
paths leave exactly "hi" in the element. -/
theorem humanType_roundtrip_ascii_witness :
    HumanType "hi" = "hi".data
    ∧ humanTypeWithMistakes "hi" false 1 3 = .ok "hi".data
    ∧ humanTypeWithMistakes "hi" true 1 3 = .ok "hi".data := by
  have h := humanType_roundtrip_ascii "hi" 1 3
  exact ⟨h.1, h.2.1, h.2.2 (by decide) (by decide)⟩

/-- Counterexample for C5: on the two-byte non-ASCII text "é", the
typo branch types the two BYTES of the text as two separate
characters, so the element ends with two characters different from
the original one-character text — the round-trip fails. -/
theorem humanType_typo_non_ascii_cex :
    humanTypeWithMistakes "é" true 0 0 = .ok [Char.ofNat 195, Char.ofNat 169]
    ∧ [Char.ofNat 195, Char.ofNat 169] ≠ "é".data
    ∧ [Char.ofNat 195, Char.ofNat 169].length ≠ "é".data.length := by
  refine ⟨rfl, by decide, by decide⟩

/-- Claim C10: for every text of byte length 0 or 1, the typo branch
(taken with probability 0.3) panics before typing anything, because
`rand.Intn` is invoked with the non-positive bound `len(text) - 1`. -/
theorem humanType_short_text_panics (text : String) (tp wi : Nat)
    (hlen : (utf8Bytes text).length ≤ 1) :
    humanTypeWithMistakes text true tp wi = .error []
    ∧ ((utf8Bytes text).length : Int) - 1 ≤ 0 := by
  have hc : ((utf8Bytes text).length : Int) - 1 ≤ 0 := by omega
  exact ⟨by simp [humanTypeWithMistakes, hc], hc⟩

/-- Witness for C10: the one-byte text "a" drives the typo branch into
the panic, with nothing typed. -/
theorem humanType_short_text_panics_witness :
    (utf8Bytes "a").length ≤ 1
    ∧ humanTypeWithMistakes "a" true 0 0 = .error []
    ∧ ((utf8Bytes "a").length : Int) - 1 ≤ 0 := by
  refine ⟨by decide, ?_, ?_⟩
  · exact (humanType_short_text_panics "a" 0 0 (by decide)).1
  · exact (humanType_short_text_panics "a" 0 0 (by decide)).2

/-- Counterexample for C3: with a non-empty prior bundle on disk and a
non-empty fresh bundle, the save sequence of `saveCookies` exposes an
intermediate state (the truncated, empty file) that is neither the old
bundle nor the new one — the save is not atomic. -/
theorem saveCookies_not_atomic_cex :
    ¬ AtomicSave (some [7, 7]) (saveCookiesOps [9]) (some [9]) := by
  unfold AtomicSave
  decide

/-- Claim C3 (amended): `saveCookies` persists the fresh bundle by
truncating `cookies.json` in place (`os.Create` / `os.WriteFile`) and
then writing the encoded data: an uninterrupted save does yield the
fresh bundle, but there is no write-to-temp-then-rename step, and an
interruption between the truncation and the write leaves a truncated
bundle that is neither the old nor the new one. -/
theorem saveCookies_truncate_write_not_atomic (old : Option (List Nat))
    (data : List Nat) (hold : old ≠ some []) (hdata : data ≠ []) :
    fsRun old (saveCookiesOps data) = some data
    ∧ ¬ AtomicSave old (saveCookiesOps data) (some data) := by
  constructor
  · rfl
  · intro hA
    have hmem : some ([] : List Nat) ∈ fsMidStates old (saveCookiesOps data) := by
      simp only [fsMidStates, List.mem_map, List.mem_range]
      exact ⟨1, by norm_num [saveCookiesOps], rfl⟩
    rcases hA _ hmem with h | h
    · exact hold h.symm
    · exact hdata (Option.some.inj h).symm

/-- Witness for C3 (amended): saving the bundle `[2]` over the prior
bundle `[1]` ends with `[2]` on disk but is not atomic. -/
theorem saveCookies_truncate_write_not_atomic_witness :
    fsRun (some [1]) (saveCookiesOps [2]) = some [2]
    ∧ ¬ AtomicSave (some [1]) (saveCookiesOps [2]) (some [2]) :=
  saveCookies_truncate_write_not_atomic (some [1]) [2] (by decide) (by decide)
